import Mathlib

/-!
Shallow embedding of the orchestration core of the media-processing pipeline
repository (`src/core/utils/path_manager.py`, `src/core/utils/venv.py`,
`src/core/pipeline.py`, `src/core/pipeline_new.py`), together with theorems
settling the spec claims about classification, batch transfer, the
cross-environment bridge, local-module parameter validation, and the batch
run loop of `DataProcessingPipeline` (pipeline_new.py).

Filesystem state is modelled as an association list from path strings to file
data (content plus a modification-time marker).  Directories are implicit: a
path "exists" when a file is stored at it or some file lives strictly below
it.  `os.walk` is modelled by its result: the list of stored paths lying under
the root, in store order (Python's walk order is the OS directory order and is
not sorted).
-/

namespace Pipeline

/-! ## Path helpers (`os.path`) -/

/-- Characters of the basename of a path: everything after the last `/`
(`os.path.basename` for POSIX paths). -/
def basenameChars (l : List Char) : List Char :=
  ((l.reverse.takeWhile (fun c => c ≠ '/'))).reverse

/-- `os.path.basename` on POSIX paths. -/
def basename (s : String) : String :=
  String.mk (basenameChars s.data)

/-- `os.path.join dir name` for a relative `name` on POSIX. -/
def pjoin (d b : String) : String :=
  d ++ "/" ++ b

/-- A string free of path separators (true of every basename). -/
def noSlash (s : String) : Prop :=
  '/' ∉ s.data

instance (s : String) : Decidable (noSlash s) := by
  unfold noSlash
  infer_instance

/-- Prefix test on character lists. -/
def isPrefixChars : List Char → List Char → Bool
  | [], _ => true
  | _ :: _, [] => false
  | a :: as, b :: bs => a = b && isPrefixChars as bs

/-- String prefix test (used for the directory-containment view of the
path store). -/
def strHasPrefix (pre s : String) : Bool :=
  isPrefixChars pre.data s.data

/-- Index of the last occurrence of `c` in `l`, or `none`. -/
def rfindChar (l : List Char) (c : Char) : Option Nat :=
  (List.range l.length).foldl
    (fun acc i => if l.get? i = some c then some i else acc) none

/-- `os.path.splitext(p)[1]`: the extension including the dot.  Following
CPython's `posixpath.splitext`: the extension starts at the last dot after the
last separator, provided some earlier character of the basename is not a dot
(so `.bashrc` has no extension). -/
def pyExt (p : String) : String :=
  let cs := p.data
  let sepIdx : Int := match rfindChar cs '/' with
    | some i => (i : Int)
    | none => -1
  let dotIdx : Int := match rfindChar cs '.' with
    | some i => (i : Int)
    | none => -1
  if dotIdx > sepIdx then
    if (List.range cs.length).any
        (fun k => decide (sepIdx < (k : Int)) && decide ((k : Int) < dotIdx)
          && decide (cs.get? k ≠ some '.')) then
      String.mk (cs.drop dotIdx.toNat)
    else ""
  else ""

/-- Python `str.lower` restricted to ASCII (extensions are ASCII). -/
def pyLower (s : String) : String :=
  String.mk (s.data.map Char.toLower)

/-! ## Filesystem model -/

/-- Content and modification marker of one stored file (`shutil.copy2`
preserves both; this is the "modification metadata" in the spec). -/
structure FileData where
  content : String
  mtime : Nat
  deriving DecidableEq

/-- The filesystem: stored files as a path-keyed association list.
Store order doubles as `os.walk` encounter order. -/
def FS := List (String × FileData)

instance : DecidableEq FS := by
  unfold FS
  infer_instance

/-- Lookup the file stored at a path. -/
def fsLookup (fs : FS) (p : String) : Option FileData :=
  match fs.find? (fun q => q.1 = p) with
  | some q => some q.2
  | none => none

/-- Write `d` at path `p`: replace in place when present, else append. -/
def fsSet (fs : FS) (p : String) (d : FileData) : FS :=
  match fs with
  | [] => [(p, d)]
  | q :: rest => if q.1 = p then (p, d) :: rest else q :: fsSet rest p d

/-- Remove the file stored at `p` (no-op when absent). -/
def fsErase (fs : FS) (p : String) : FS :=
  fs.filter (fun q => q.1 ≠ p)

/-- `os.path.exists`: a file is stored at `p`, or `p` is a (non-empty)
directory, i.e. some stored file lies strictly below it. -/
def pyExists (fs : FS) (p : String) : Bool :=
  (fsLookup fs p).isSome || fs.any (fun q => strHasPrefix (p ++ "/") q.1)

/-- Errors surfaced by the embedded Python code. -/
inductive PyErr where
  | fileNotFound (path : String)
  | keyError (key : String)
  | valueError (msg : String)
  | typeError (msg : String)
  | nameError (name : String)
  deriving DecidableEq

/-- `str(e)` for recorded error entries. -/
def PyErr.msg : PyErr → String
  | .fileNotFound p => "No such file or directory: " ++ p
  | .keyError k => k
  | .valueError m => m
  | .typeError m => m
  | .nameError n => "name '" ++ n ++ "' is not defined"

/-- `shutil.copy2 src dst`: copy content and metadata; missing source is an
error. -/
def copy2 (fs : FS) (src dst : String) : Except PyErr FS :=
  match fsLookup fs src with
  | none => .error (.fileNotFound src)
  | some d => .ok (fsSet fs dst d)

/-- `shutil.move src dst` for file targets: the destination receives the
source's data and the source disappears. -/
def shutilMove (fs : FS) (src dst : String) : Except PyErr FS :=
  match fsLookup fs src with
  | none => .error (.fileNotFound src)
  | some d => .ok (fsSet (fsErase fs src) dst d)

/-! ## `PathManager` (src/core/utils/path_manager.py) -/

/-- The configuration of `PathManager.__init__` (extension sets and the
default overwrite policy). -/
structure PM where
  supported_image_formats : List String
  supported_video_formats : List String
  default_overwrite : Bool

/-- The defaults of `PathManager.__init__`. -/
def pmDefault : PM :=
  { supported_image_formats := [".jpg", ".jpeg", ".png", ".bmp"]
    supported_video_formats := [".mp4", ".avi", ".mov", ".mkv"]
    default_overwrite := false }

/-- `PathManager.get_file_type` (path_manager.py lines 107-115): lowercase
extension looked up first in the image set, then the video set, else
`"other"`. -/
def get_file_type (pm : PM) (file_path : String) : String :=
  let ext := pyLower (pyExt file_path)
  if pm.supported_image_formats.contains ext then "image"
  else if pm.supported_video_formats.contains ext then "video"
  else "other"

/-- The classification dictionary `{"image": [...], "video": [...],
"other": [...]}`. -/
structure Classified where
  image : List String
  video : List String
  other : List String
  deriving DecidableEq

/-- `classified[file_type].append(file_path)`; `get_file_type` only ever
returns one of the three keys, so dispatch on that string. -/
def addFile (pm : PM) (c : Classified) (file_path : String) : Classified :=
  let t := get_file_type pm file_path
  if t = "image" then { c with image := c.image ++ [file_path] }
  else if t = "video" then { c with video := c.video ++ [file_path] }
  else { c with other := c.other ++ [file_path] }

/-- The loop body of `PathManager.classify_files` over an explicit walk
listing (path_manager.py lines 123-128). -/
def classifyList (pm : PM) (files : List String) : Classified :=
  files.foldl (addFile pm) ⟨[], [], []⟩

/-- The file paths `os.walk root_dir` delivers: stored paths under
`root_dir`, in store order. -/
def walkFiles (fs : FS) (root_dir : String) : List String :=
  (fs.map Prod.fst).filter (fun p => strHasPrefix (root_dir ++ "/") p)

/-- `PathManager.classify_files` (path_manager.py lines 117-129). -/
def classify_files (pm : PM) (fs : FS) (root_dir : String) : Classified :=
  classifyList pm (walkFiles fs root_dir)

/-- Result of a batch transfer: the filesystem after the side effects that
happened, the returned `target_paths` list, and the exception that escaped
the loop, if any (the Python loop has no try, so the first failing
`shutil` call aborts the method, keeping earlier side effects). -/
structure BatchResult where
  fs : FS
  ret : List String
  err : Option PyErr
  deriving DecidableEq

/-- Loop of `PathManager.batch_copy_files` (path_manager.py lines 81-86):
flattening copy of each source to `output_dir/basename(source)`, skipped
when the target exists and `overwrite` is false. -/
def batchCopyGo (out : String) (ow : Bool) : FS → List String → List String → BatchResult
  | fs, [], acc => ⟨fs, acc, none⟩
  | fs, src :: rest, acc =>
    let target := pjoin out (basename src)
    if pyExists fs target && !ow then
      batchCopyGo out ow fs rest (acc ++ [target])
    else
      match copy2 fs src target with
      | .error e => ⟨fs, acc, some e⟩
      | .ok fs' => batchCopyGo out ow fs' rest (acc ++ [target])

/-- `PathManager.batch_copy_files` (path_manager.py lines 68-87); `overwrite`
defaults to the manager's `default_overwrite` when the caller passes none
(`os.makedirs(output_dir, exist_ok=True)` is a no-op in the file model). -/
def batch_copy_files (pm : PM) (fs : FS) (source_files : List String)
    (output_dir : String) (overwrite : Option Bool) : BatchResult :=
  let ow := overwrite.getD pm.default_overwrite
  batchCopyGo output_dir ow fs source_files []

/-- Loop of `PathManager.batch_move_files` (path_manager.py lines 98-104). -/
def batchMoveGo (out : String) (ow : Bool) : FS → List String → List String → BatchResult
  | fs, [], acc => ⟨fs, acc, none⟩
  | fs, src :: rest, acc =>
    let target := pjoin out (basename src)
    if pyExists fs target && !ow then
      batchMoveGo out ow fs rest (acc ++ [target])
    else
      match shutilMove fs src target with
      | .error e => ⟨fs, acc, some e⟩
      | .ok fs' => batchMoveGo out ow fs' rest (acc ++ [target])

/-- `PathManager.batch_move_files` (path_manager.py lines 89-105). -/
def batch_move_files (pm : PM) (fs : FS) (source_files : List String)
    (output_dir : String) (overwrite : Option Bool) : BatchResult :=
  let ow := overwrite.getD pm.default_overwrite
  batchMoveGo output_dir ow fs source_files []

/-! ## `EnvironmentManager` (src/core/utils/venv.py)

The child process and the host OS are external to the embedding: the OS is a
record of facts `get_activate_command` consults, and the child is a function
from the content of the serialized request file to an exit outcome plus what
it leaves in the output file.  JSON values are modelled by an inductive type;
`json.dump`/`json.load` on such values are mutually inverse, so temp-file
contents are stored as values directly. -/

/-- A JSON value (the bridge's serialization format). -/
inductive Json where
  | null
  | bool (b : Bool)
  | num (n : Int)
  | str (s : String)
  | arr (elems : List Json)
  | obj (fields : List (String × Json))

/-- The facts about the host that `get_activate_command` reads:
`os.name == 'nt'` and `os.path.exists` on environment paths. -/
structure OsEnv where
  isWindows : Bool
  pathExists : String → Bool

/-- Path separator (`os.path.join`). -/
def OsEnv.sep (env : OsEnv) : String :=
  if env.isWindows then "\\" else "/"

/-- `os.path.join` under the host's separator. -/
def OsEnv.join (env : OsEnv) (d b : String) : String :=
  d ++ env.sep ++ b

/-- The value `get_activate_command` returns: a command string, or the
literal empty list `[]` the function returns when the path is falsy or does
not exist (a type slip in the source; the only use is a truthiness test). -/
inductive PyStrOrList where
  | s (v : String)
  | emptyList
  deriving DecidableEq

/-- Python truthiness of that value. -/
def PyStrOrList.truthy : PyStrOrList → Bool
  | .s v => v ≠ ""
  | .emptyList => false

/-- `EnvironmentManager.get_activate_command` (venv.py lines 12-33).
`venv_path` is `None` or a string; a falsy or non-existing path yields `[]`,
otherwise a conda or virtualenv activation prefix per OS family. -/
def get_activate_command (env : OsEnv) (venv_path : Option String) : PyStrOrList :=
  let vp := venv_path.getD ""
  if vp = "" || !env.pathExists vp then .emptyList
  else
    let is_conda_env := env.pathExists (env.join vp "conda-meta")
    if env.isWindows then
      if is_conda_env then .s ("conda activate \x22" ++ vp ++ "\x22 &&")
      else .s ("\x22" ++ env.join (env.join vp "Scripts") "activate.bat" ++ "\x22 &&")
    else
      if is_conda_env then
        .s (". $(conda info --base)/etc/profile.d/conda.sh && conda activate \x22" ++ vp ++ "\x22 &&")
      else .s ("source \x22" ++ env.join (env.join vp "bin") "activate" ++ "\x22 &&")

/-- Outcome of `subprocess.run(full_command, shell=True, check=True)`:
normal exit 0, non-zero exit (raises `CalledProcessError`), or a spawn
failure (an `OSError`-style exception from launching the shell). -/
inductive ChildExit where
  | exit0
  | exitNZ (returncode : Int) (stderr : String)
  | spawnFail (msg : String)
  deriving DecidableEq

/-- Behaviour of the external process: given the deserialized content of the
request file, its exit outcome and the content it leaves in the output file
(`none` = missing/empty/not valid JSON, so `json.load` fails). -/
def ChildBehavior := Json → ChildExit × Option Json

/-- Temp-file store: path to content (`none` = exists but holds no valid
JSON, as the freshly created output file). -/
def TmpFS := List (String × Option Json)

/-- Lookup in the temp-file store. -/
def tmpLookup (t : TmpFS) (p : String) : Option (Option Json) :=
  match t.find? (fun q => q.1 = p) with
  | some q => some q.2
  | none => none

/-- The `finally` block of `run_in_environment` (venv.py lines 79-84): remove
both temp files when they exist. -/
def cleanupTemps (t : TmpFS) (input_file output_file : String) : TmpFS :=
  (t.filter (fun q => q.1 ≠ input_file)).filter (fun q => q.1 ≠ output_file)

/-- What `run_in_environment` produces: the `(output_data, error)` pair it
returns, the temp-file store after the `finally` cleanup, and the
`full_command` string it composed (embedded in error messages). -/
structure BridgeResult where
  response : Option Json
  error : Option String
  tmpfs : TmpFS
  full_command : String

/-- The error string of venv.py line 76 for a `CalledProcessError`. -/
def execErrorMsg (returncode : Int) (stderr full_command : String) : String :=
  "命令执行失败: 退出码 " ++ toString returncode ++ ", 错误: " ++ stderr
    ++ ", 命令: " ++ full_command

/-- The error string of venv.py line 78 for any other exception. -/
def genericErrorMsg (emsg full_command : String) : String :=
  "处理过程出错: " ++ emsg ++ ", 命令: " ++ full_command

/-- `EnvironmentManager.run_in_environment` (venv.py lines 35-84).  The two
temp files are created first (request serialized into `input_file`, empty
`output_file`); the command line is composed from the activation prefix and
the command parts plus the two file paths; the child runs; exit 0 leads to
deserializing the output file, other outcomes to the two except-branches;
the `finally` cleanup runs on every path. -/
def run_in_environment (env : OsEnv) (child : ChildBehavior)
    (venv_path : Option String) (command : List String) (input_data : Json)
    (input_file output_file : String) : BridgeResult :=
  let activate_cmd := get_activate_command env venv_path
  let tmp0 : TmpFS := [(input_file, some input_data), (output_file, none)]
  let command_str := " ".intercalate (command ++ [input_file, output_file])
  let full_command :=
    match activate_cmd with
    | .s a => if a ≠ "" then a ++ " " ++ command_str else command_str
    | .emptyList => command_str
  match child input_data with
  | (.spawnFail m, written) =>
    { response := none
      error := some (genericErrorMsg m full_command)
      tmpfs := cleanupTemps (written.elim tmp0 (fun w => (input_file, some input_data) :: [(output_file, some w)])) input_file output_file
      full_command := full_command }
  | (.exitNZ code stderr, written) =>
    { response := none
      error := some (execErrorMsg code stderr full_command)
      tmpfs := cleanupTemps (written.elim tmp0 (fun w => (input_file, some input_data) :: [(output_file, some w)])) input_file output_file
      full_command := full_command }
  | (.exit0, some w) =>
    { response := some w
      error := none
      tmpfs := cleanupTemps [(input_file, some input_data), (output_file, some w)] input_file output_file
      full_command := full_command }
  | (.exit0, none) =>
    { response := none
      error := some (genericErrorMsg "json decode failed" full_command)
      tmpfs := cleanupTemps tmp0 input_file output_file
      full_command := full_command }

/-! ## Local-module parameter validation
(`DataProcessingPipeline._validate_init_params`, identical in
src/core/pipeline.py lines 254-330 and src/core/pipeline_new.py lines
494-570). -/

/-- Python runtime type tags for configuration values. -/
inductive PyType where
  | strT | intT | floatT | boolT | listT | dictT | noneT
  deriving DecidableEq

/-- `type(t).__name__`-style printing for error messages. -/
def PyType.name : PyType → String
  | .strT => "str" | .intT => "int" | .floatT => "float" | .boolT => "bool"
  | .listT => "list" | .dictT => "dict" | .noneT => "NoneType"

/-- A constructor parameter's annotation as the validation code probes it:
absent (`inspect.Parameter.empty`), a plain class (where
`isinstance(expected_type, type)` is true), or any non-class annotation such
as `Optional[...]`, `Union[...]` or `List[...]` (where it is false and the
code falls into the Union branch). -/
inductive Ann where
  | empty
  | cls (t : PyType)
  | nonCls
  deriving DecidableEq

/-- One parameter of the handler's `__init__` signature, in declaration
order (including `self`, which carries no default and no annotation). -/
structure SigParam where
  pname : String
  hasDefault : Bool
  ann : Ann
  deriving DecidableEq

/-- A supplied configuration value, abstracted to its runtime type tag. -/
structure PyVal where
  ty : PyType
  deriving DecidableEq

/-- Dictionary key lookup for `init_params`. -/
def dictHas (d : List (String × PyVal)) (k : String) : Bool :=
  d.any (fun q => q.1 = k)

/-- Outcome of `_validate_init_params`: success (with the extra-parameter
names that were only warned about), the `ValueError` for missing required
parameters (carrying the missing names and the full required set), the
`TypeError` for a class-annotation mismatch, or the `NameError` raised when
the Union branch evaluates the unimported name `Union` (pipeline.py line
321 / pipeline_new.py line 561; only `get_args` and `get_origin` are
imported, and a `NameError` is not caught by the `except ImportError`). -/
inductive ValidateResult where
  | ok (extraWarned : List String)
  | valueError (missing : List String) (required : List String)
  | typeError (pname : String) (expected : PyType) (actual : PyType)
  | nameError (missing_name : String)
  deriving DecidableEq

/-- The per-parameter type-check loop (step 5 of the source), returning the
first failure in signature order. -/
def validateTypes (sig : List SigParam) (init_params : List (String × PyVal)) :
    Option ValidateResult :=
  match sig with
  | [] => none
  | p :: rest =>
    if p.pname = "self" || !dictHas init_params p.pname then
      validateTypes rest init_params
    else
      match p.ann with
      | .empty => validateTypes rest init_params
      | .cls t =>
        match (init_params.find? (fun q => q.1 = p.pname)).map (fun q => q.2.ty) with
        | some actual =>
          if actual = t then validateTypes rest init_params
          else some (.typeError p.pname t actual)
        | none => validateTypes rest init_params
      | .nonCls => some (.nameError "Union")

/-- `_validate_init_params`: missing-required check (fatal `ValueError`),
extra-parameter warning (not fatal), then the per-parameter type checks
(`isinstance` is modelled as matching runtime type tags). -/
def validate_init_params (sig : List SigParam) (init_params : List (String × PyVal)) :
    ValidateResult :=
  let init_param_names := (sig.filter (fun p => p.pname ≠ "self")).map (fun p => p.pname)
  let required_params :=
    ((sig.filter (fun p => p.pname ≠ "self")).filter (fun p => !p.hasDefault)).map
      (fun p => p.pname)
  let missing_params := required_params.filter (fun n => !dictHas init_params n)
  if missing_params ≠ [] then .valueError missing_params required_params
  else
    let extra_params :=
      (init_params.map Prod.fst).filter (fun k => !init_param_names.contains k)
    match validateTypes sig init_params with
    | some r => r
    | none => .ok extra_params

/-! ## Pipeline engine, batch model (src/core/pipeline_new.py)

`DataProcessingPipeline.run` iterates the configured steps; per step it reads
the module's configured `output_path`, calls `_process_step` on the current
classified set, then re-classifies the output directory and appends a report
entry.  The loop header reads `self.config["pipeline_steps"]`; the step list
actually lives in `self.pipeline_steps` and the config never holds that key
(a slip of the source); the embedding takes the step list as the value that
lookup was meant to produce.  `stop_on_error` is part of the run
configuration but the batch `run` path never reads it. -/

/-- A registered module (`register_module`, pipeline_new.py lines 100-105):
kind, target path, optional environment, and — the only part of its `config`
dictionary the run loop reads — `config.get("output_path")`. -/
structure ModuleInfo where
  mtype : String
  mpath : String
  venv_path : Option String
  output_path : Option String
  deriving DecidableEq

/-- One pipeline step as stored by `add_step` (pipeline_new.py lines
107-117); of its `bridge` dictionary the run path reads `skip_types`
(default `[]`) and `action` (default `"copy"`). -/
structure Step where
  step_name : String
  module_name : String
  skip_types : List String
  action : String
  deriving DecidableEq

/-- One recorded bridge entry `{type, count, action}`. -/
structure BridgeRec where
  btype : String
  count : Nat
  action : String
  deriving DecidableEq

/-- One recorded error entry `{type, error, stage}`. -/
structure ErrRec where
  etype : String
  emsg : String
  stage : String
  deriving DecidableEq

/-- The `step_result` dictionary of `_process_step` (pipeline_new.py lines
183-189). -/
structure StepResult where
  processed_types : List String
  processed_count : Nat
  bridged : List BridgeRec
  errors : List ErrRec
  module_details : List (String × String)
  deriving DecidableEq

/-- `input_classified[t]` for the three keys of the classification
dictionary (`None` for any other string, standing for the
`if file_type not in input_classified` membership test). -/
def getCat (c : Classified) (t : String) : Option (List String) :=
  if t = "image" then some c.image
  else if t = "video" then some c.video
  else if t = "other" then some c.other
  else none

/-- Module registry lookup. -/
def findModule (modules : List (String × ModuleInfo)) (n : String) : Option ModuleInfo :=
  match modules.find? (fun q => q.1 = n) with
  | some q => some q.2
  | none => none

/-- `DataProcessingPipeline._process_batch_with_module` (pipeline_new.py
lines 263-306).  After the registry lookup the function executes
`os.makedirs(output_dir, exist_ok=True)` (line 270), but `output_dir` is not
a parameter of this method and is bound nowhere in scope, so every call
raises `NameError` before reaching the local/external dispatch; the dispatch
code below line 270 is unreachable. -/
def process_batch_with_module (modules : List (String × ModuleInfo))
    (module_name : String) : Except PyErr String :=
  match findModule modules module_name with
  | none => .error (.valueError ("模块 " ++ module_name ++ " 未注册"))
  | some _ => .error (.nameError "output_dir")

/-- State threaded through the two loops of `_process_step`. -/
structure StepState where
  fs : FS
  res : StepResult
  deriving DecidableEq

/-- The bridging loop of `_process_step` (pipeline_new.py lines 192-223):
for each skipped type with files, batch copy/move them to `output_dir`
(note line 201 computes `skip_output_dir` but line 205/210 passes
`output_dir`); a success appends a `bridged` record, an exception an error
record with stage `"bridge"`. -/
def bridgeLoop (pm : PM) (output_dir : String) (bridge_action : String)
    (input_classified : Classified) : StepState → List String → StepState
  | st, [] => st
  | st, file_type :: rest =>
    match getCat input_classified file_type with
    | none => bridgeLoop pm output_dir bridge_action input_classified st rest
    | some source_files =>
      if source_files = [] then
        bridgeLoop pm output_dir bridge_action input_classified st rest
      else
        let br :=
          if bridge_action = "copy" then
            batch_copy_files pm st.fs source_files output_dir none
          else
            batch_move_files pm st.fs source_files output_dir none
        let st' :=
          match br.err with
          | some e =>
            { fs := br.fs
              res := { st.res with
                errors := st.res.errors ++ [⟨file_type, e.msg, "bridge"⟩] } }
          | none =>
            { fs := br.fs
              res := { st.res with
                bridged := st.res.bridged
                  ++ [⟨file_type, source_files.length, bridge_action⟩] } }
        bridgeLoop pm output_dir bridge_action input_classified st' rest

/-- The processing loop of `_process_step` (pipeline_new.py lines 226-259):
for each non-skipped type with files, copy them into the per-type staging
directory `output_dir/_<type>_input` and dispatch to the module; any
exception in the try is recorded with stage `"process"`. -/
def processLoop (pm : PM) (modules : List (String × ModuleInfo))
    (module_name output_dir : String) (input_classified : Classified) :
    StepState → List String → StepState
  | st, [] => st
  | st, file_type :: rest =>
    match getCat input_classified file_type with
    | none => processLoop pm modules module_name output_dir input_classified st rest
    | some source_files =>
      if source_files = [] then
        processLoop pm modules module_name output_dir input_classified st rest
      else
        let module_input_dir := output_dir ++ "/_" ++ file_type ++ "_input"
        let br := batch_copy_files pm st.fs source_files module_input_dir none
        let st' :=
          match br.err with
          | some e =>
            { fs := br.fs
              res := { st.res with
                errors := st.res.errors ++ [⟨file_type, e.msg, "process"⟩] } }
          | none =>
            match process_batch_with_module modules module_name with
            | .error e =>
              { fs := br.fs
                res := { st.res with
                  errors := st.res.errors ++ [⟨file_type, e.msg, "process"⟩] } }
            | .ok v =>
              { fs := br.fs
                res := { st.res with
                  module_details := st.res.module_details ++ [(file_type, v)]
                  processed_types := st.res.processed_types ++ [file_type]
                  processed_count := st.res.processed_count + source_files.length } }
        processLoop pm modules module_name output_dir input_classified st' rest

/-- `DataProcessingPipeline._process_step` (pipeline_new.py lines 171-261).
The registry access `self.modules[module_name]` (line 176) raises `KeyError`
for an unregistered module and an invalid bridge action raises `ValueError`
(line 181); both escape to `run`'s except-handler.  Otherwise the bridging
loop runs over `skip_types` and the processing loop over the dictionary
iteration order `["image", "video", "other"]` minus `skip_types`. -/
def process_step (pm : PM) (modules : List (String × ModuleInfo)) (fs : FS)
    (step : Step) (input_classified : Classified) (output_dir : String) :
    Except PyErr StepState :=
  match findModule modules step.module_name with
  | none => .error (.keyError step.module_name)
  | some _ =>
    if step.action ≠ "copy" ∧ step.action ≠ "move" then
      .error (.valueError ("步骤 " ++ step.step_name
        ++ " 桥接配置错误：action必须为'copy'或'move'"))
    else
      let st0 : StepState := ⟨fs, ⟨[], 0, [], [], []⟩⟩
      let st1 := bridgeLoop pm output_dir step.action input_classified st0 step.skip_types
      let process_types :=
        (["image", "video", "other"].filter (fun t => !step.skip_types.contains t))
      .ok (processLoop pm modules step.module_name output_dir input_classified st1
        process_types)

/-- One entry of `all_results["steps"]` (pipeline_new.py lines 157-163):
`input_classified` is the count dictionary `{k: len(v)}` in key order
image, video, other. -/
structure RunEntry where
  step_name : String
  input_dir : String
  input_classified : List (String × Nat)
  output_dir : String
  result : StepResult
  deriving DecidableEq

/-- How a call to `run` ends: it returned a report (complete, or the partial
`all_results` returned from the except-handler at line 166), or an exception
escaped `run` itself (the registry access at line 138 is outside the try). -/
inductive RunOutcome where
  | finished (steps : List RunEntry) (fs : FS)
  | raised (e : PyErr) (fs : FS)
  deriving DecidableEq

/-- The count dictionary `{k: len(v) for k, v in classified.items()}`. -/
def countsOf (c : Classified) : List (String × Nat) :=
  [("image", c.image.length), ("video", c.video.length), ("other", c.other.length)]

/-- The step loop of `run` (pipeline_new.py lines 136-166).  Per step:
`output_path = self.modules[step["module_name"]]["config"].get("output_path")`
(line 138, outside the try: `KeyError` escapes `run`); a step without
`output_path` is skipped with no entry (line 142-144); then the try calls
`_process_step`, reassigns `current_classified` to the classification of the
output directory and `current_dir` to the output path, and appends the entry
built from those reassigned values; any exception makes `run` return the
partial `all_results`. -/
def runSteps (pm : PM) (modules : List (String × ModuleInfo)) :
    FS → String → Classified → List Step → List RunEntry → RunOutcome
  | fs, _, _, [], acc => .finished acc fs
  | fs, current_dir, current_classified, step :: rest, acc =>
    match findModule modules step.module_name with
    | none => .raised (.keyError step.module_name) fs
    | some mi =>
      match mi.output_path with
      | none => runSteps pm modules fs current_dir current_classified rest acc
      | some output_path =>
        match process_step pm modules fs step current_classified output_path with
        | .error _ => .finished acc fs
        | .ok st =>
          let current_classified' := classify_files pm st.fs output_path
          let current_dir' := output_path
          let entry : RunEntry :=
            { step_name := step.step_name
              input_dir := current_dir'
              input_classified := countsOf current_classified'
              output_dir := output_path
              result := st.res }
          runSteps pm modules st.fs current_dir' current_classified' rest (acc ++ [entry])

/-- `DataProcessingPipeline.run` (pipeline_new.py lines 119-169): empty
report if the input path does not exist; otherwise one pre-classification of
the input path seeds the loop.  `stop_on_error` is taken from the run
configuration and — as in the source — never consulted. -/
def run (stop_on_error : Bool) (pm : PM) (modules : List (String × ModuleInfo))
    (steps : List Step) (fs : FS) (input_path : String) : RunOutcome :=
  let _ := stop_on_error
  if !pyExists fs input_path then .finished [] fs
  else
    let classified0 := classify_files pm fs input_path
    runSteps pm modules fs input_path classified0 steps []

/-! ## Auxiliary decidable predicates and concrete scenarios -/

/-- Lexicographic comparison of character lists. -/
def charListLe : List Char → List Char → Bool
  | [], _ => true
  | _ :: _, [] => false
  | a :: as, b :: bs => if a = b then charListLe as bs else decide (a < b)

/-- Lexicographic order on path strings. -/
def pathLe (a b : String) : Bool :=
  charListLe a.data b.data

/-- Scenario for C1: the input tree `/in` holds one image, and the step's
output directory `/out` already holds one image before the run. -/
def fsC1 : FS :=
  [("/out/x.png", ⟨"png-bytes", 0⟩), ("/in/a.jpg", ⟨"jpg-bytes", 1⟩)]

/-- The single registered module of scenario C1, with `output_path` `/out`. -/
def modulesC1 : List (String × ModuleInfo) :=
  [("m", ⟨"local", "BlurDetector", none, some "/out"⟩)]

/-- The single step of scenario C1: bridge images by copy. -/
def stepsC1 : List Step :=
  [⟨"step1", "m", ["image"], "copy"⟩]

/-- The filesystem after scenario C1's run: the image was bridged into
`/out`. -/
def fsC1' : FS :=
  [("/out/x.png", ⟨"png-bytes", 0⟩), ("/in/a.jpg", ⟨"jpg-bytes", 1⟩),
   ("/out/a.jpg", ⟨"jpg-bytes", 1⟩)]

/-- The report entry scenario C1's run appends. -/
def entryC1 : RunEntry :=
  { step_name := "step1"
    input_dir := "/out"
    input_classified := [("image", 2), ("video", 0), ("other", 0)]
    output_dir := "/out"
    result := ⟨[], 0, [⟨"image", 1, "copy"⟩], [], []⟩ }

/-- Scenario for C2: one video in the input tree. -/
def fsC2 : FS :=
  [("/in/v.mp4", ⟨"mp4-bytes", 7⟩)]

/-- Two registered modules with distinct output directories. -/
def modulesC2 : List (String × ModuleInfo) :=
  [("m1", ⟨"local", "VideoDurationFilter", none, some "/o1"⟩),
   ("m2", ⟨"local", "BlurDetector", none, some "/o2"⟩)]

/-- Two steps, neither bridging anything. -/
def stepsC2 : List Step :=
  [⟨"s1", "m1", [], "copy"⟩, ⟨"s2", "m2", [], "copy"⟩]

/-- The error entry every processed category records (the dispatch helper
always raises `NameError` on the unbound `output_dir`). -/
def errVideoC2 : ErrRec :=
  ⟨"video", (PyErr.nameError "output_dir").msg, "process"⟩

/-- Report entry of scenario C2's first step. -/
def entryC2a : RunEntry :=
  { step_name := "s1"
    input_dir := "/o1"
    input_classified := [("image", 0), ("video", 1), ("other", 0)]
    output_dir := "/o1"
    result := ⟨[], 0, [], [errVideoC2], []⟩ }

/-- Report entry of scenario C2's second step. -/
def entryC2b : RunEntry :=
  { step_name := "s2"
    input_dir := "/o2"
    input_classified := [("image", 0), ("video", 1), ("other", 0)]
    output_dir := "/o2"
    result := ⟨[], 0, [], [errVideoC2], []⟩ }

/-- The filesystem after scenario C2's run: both steps staged the video into
their per-type staging directory before the dispatch failed. -/
def fsC2' : FS :=
  [("/in/v.mp4", ⟨"mp4-bytes", 7⟩),
   ("/o1/_video_input/v.mp4", ⟨"mp4-bytes", 7⟩),
   ("/o2/_video_input/v.mp4", ⟨"mp4-bytes", 7⟩)]

/-- A store whose walk order is not lexicographic (directory enumeration
order is the OS's, not sorted). -/
def fsC9 : FS :=
  [("/r/b.jpg", ⟨"b", 0⟩), ("/r/a.jpg", ⟨"a", 1⟩)]

/-- A small tree for the classification witness: one image, one video, one
other file. -/
def fsC3 : FS :=
  [("/r/a.jpg", ⟨"a", 0⟩), ("/r/b.mp4", ⟨"b", 1⟩), ("/r/c.txt", ⟨"c", 2⟩)]

/-- Scenario for the C8 witness: a source file and an already-existing
destination file of the same basename. -/
def fsC8 : FS :=
  [("/src/f.txt", ⟨"new-bytes", 5⟩), ("/dst/f.txt", ⟨"old-bytes", 1⟩)]

/-- Scenario for the C10 witness: one source whose destination basename is
already taken in the output directory. -/
def fsC10 : FS :=
  [("/s/a.txt", ⟨"A", 3⟩), ("/d/a.txt", ⟨"B", 4⟩)]

/-- Handler signature of the spec's validation example: required parameters
`a` and `b`, no defaults, no annotations. -/
def sigAB : List SigParam :=
  [⟨"self", false, .empty⟩, ⟨"a", false, .empty⟩, ⟨"b", false, .empty⟩]

/-- Handler signature with one required parameter carrying an
`Optional`/`Union`-shaped annotation (not a plain class). -/
def sigUnion : List SigParam :=
  [⟨"self", false, .empty⟩, ⟨"x", false, .nonCls⟩]

/-- A host on which no path exists (so any named environment is missing). -/
def envNoPaths : OsEnv :=
  { isWindows := false, pathExists := fun _ => false }

/-- The no-op external module of the round-trip property: it copies its
input file verbatim to its output file and exits 0. -/
def childCopy : ChildBehavior :=
  fun j => (.exit0, some j)

/-! ## Lemmas on the filesystem primitives -/

theorem fsLookup_cons (a : String × FileData) (fs : FS) (p : String) :
    fsLookup (a :: fs) p = if a.1 = p then some a.2 else fsLookup fs p := by
  by_cases h : a.1 = p
  · simp [fsLookup, List.find?, h]
  · simp [fsLookup, List.find?, h]

theorem fsLookup_fsSet_self (fs : FS) (p : String) (d : FileData) :
    fsLookup (fsSet fs p d) p = some d := by
  induction fs with
  | nil => simp [fsSet, fsLookup, List.find?]
  | cons a rest ih =>
    by_cases h : a.1 = p
    · simp [fsSet, h, fsLookup_cons]
    · simp [fsSet, h, fsLookup_cons, ih]

theorem fsLookup_fsSet_ne (fs : FS) (p q : String) (d : FileData) (h : q ≠ p) :
    fsLookup (fsSet fs p d) q = fsLookup fs q := by
  induction fs with
  | nil => simp [fsSet, fsLookup_cons, fsLookup, Ne.symm h]
  | cons a rest ih =>
    by_cases ha : a.1 = p
    · subst ha
      simp [fsSet, fsLookup_cons, Ne.symm h]
    · simp [fsSet, ha, fsLookup_cons, ih]

theorem fsLookup_fsErase_self (fs : FS) (p : String) :
    fsLookup (fsErase fs p) p = none := by
  induction fs with
  | nil => rfl
  | cons a rest ih =>
    by_cases h : a.1 = p
    · simp [fsErase, List.filter, h] at ih ⊢
      exact ih
    · simp [fsErase, List.filter, h, fsLookup_cons] at ih ⊢
      exact ih

theorem fsLookup_fsErase_ne (fs : FS) (p q : String) (h : q ≠ p) :
    fsLookup (fsErase fs p) q = fsLookup fs q := by
  induction fs with
  | nil => rfl
  | cons a rest ih =>
    by_cases ha : a.1 = p
    · subst ha
      simp [fsErase, List.filter, fsLookup_cons, Ne.symm h] at ih ⊢
      exact ih
    · simp [fsErase, List.filter, ha, fsLookup_cons] at ih ⊢
      rw [ih]

theorem fsLookup_of_pyExists_false (fs : FS) (p : String)
    (h : pyExists fs p = false) : fsLookup fs p = none := by
  unfold pyExists at h
  rcases Bool.or_eq_false_iff.mp h with ⟨h₁, _⟩
  cases hl : fsLookup fs p with
  | none => rfl
  | some d => rw [hl] at h₁; simp at h₁

theorem pyExists_of_fsLookup (fs : FS) (p : String) (d : FileData)
    (h : fsLookup fs p = some d) : pyExists fs p = true := by
  unfold pyExists
  rw [h]
  simp

/-! ## Lemmas on basenames -/

theorem takeWhile_all_append (p : Char → Bool) (l₁ : List Char) (a : Char)
    (l₂ : List Char) (h₁ : ∀ x ∈ l₁, p x = true) (h₂ : p a = false) :
    (l₁ ++ a :: l₂).takeWhile p = l₁ := by
  induction l₁ with
  | nil => simp [List.takeWhile_cons, h₂]
  | cons c cs ih =>
    have hc : p c = true := h₁ c (List.mem_cons_self c cs)
    simp only [List.cons_append, List.takeWhile_cons, hc, if_true]
    rw [ih (fun x hx => h₁ x (List.mem_cons_of_mem c hx))]

theorem mem_takeWhile_pred (p : Char → Bool) (l : List Char) (x : Char)
    (h : x ∈ l.takeWhile p) : p x = true := by
  induction l with
  | nil => simp [List.takeWhile] at h
  | cons c cs ih =>
    rw [List.takeWhile_cons] at h
    by_cases hc : p c = true
    · rw [if_pos hc] at h
      rcases List.mem_cons.mp h with h' | h'
      · rwa [h']
      · exact ih h'
    · rw [if_neg hc] at h
      simp at h

theorem noSlash_basename (s : String) : noSlash (basename s) := by
  intro hmem
  have : (fun c => decide (c ≠ '/')) '/' = true := by
    have h₂ := mem_takeWhile_pred (fun c => decide (c ≠ '/'))
      s.data.reverse '/'
    apply h₂
    have : (basename s).data = basenameChars s.data := rfl
    rw [this, basenameChars] at hmem
    exact List.mem_reverse.mp hmem
  simp at this

theorem string_mk_data (s : String) : String.mk s.data = s := rfl

theorem basename_pjoin (d b : String) (h : noSlash b) :
    basename (pjoin d b) = b := by
  have hdata : (pjoin d b).data = d.data ++ '/' :: b.data := by
    show (d ++ "/" ++ b).data = _
    have hslash : ("/" : String).data = ['/'] := rfl
    rw [String.data_append, String.data_append, hslash, List.append_assoc]
    rfl
  have hchars : basenameChars (pjoin d b).data = b.data := by
    rw [hdata, basenameChars]
    rw [show (d.data ++ '/' :: b.data).reverse
        = b.data.reverse ++ '/' :: d.data.reverse by simp]
    rw [takeWhile_all_append]
    · exact List.reverse_reverse b.data
    · intro x hx
      have hxb : x ∈ b.data := List.mem_reverse.mp hx
      have : x ≠ '/' := fun he => h (he ▸ hxb)
      simpa using this
    · simp
  show String.mk (basenameChars (pjoin d b).data) = b
  rw [hchars]

/-! ## Lemmas on classification -/

theorem get_file_type_cases (pm : PM) (f : String) :
    get_file_type pm f = "image" ∨ get_file_type pm f = "video"
      ∨ get_file_type pm f = "other" := by
  by_cases h₁ : pyLower (pyExt f) ∈ pm.supported_image_formats
  · left
    simp [get_file_type, h₁]
  · by_cases h₂ : pyLower (pyExt f) ∈ pm.supported_video_formats
    · right; left
      simp [get_file_type, h₁, h₂]
    · right; right
      simp [get_file_type, h₁, h₂]

theorem foldl_addFile_image (pm : PM) (files : List String) :
    ∀ acc : Classified, (files.foldl (addFile pm) acc).image
      = acc.image ++ files.filter (fun f => get_file_type pm f == "image") := by
  induction files with
  | nil => intro acc; simp
  | cons f fs ih =>
    intro acc
    rw [List.foldl_cons, ih, List.filter_cons]
    rcases get_file_type_cases pm f with h | h | h <;>
      simp [addFile, h]

theorem foldl_addFile_video (pm : PM) (files : List String) :
    ∀ acc : Classified, (files.foldl (addFile pm) acc).video
      = acc.video ++ files.filter (fun f => get_file_type pm f == "video") := by
  induction files with
  | nil => intro acc; simp
  | cons f fs ih =>
    intro acc
    rw [List.foldl_cons, ih, List.filter_cons]
    rcases get_file_type_cases pm f with h | h | h <;>
      simp [addFile, h]

theorem foldl_addFile_other (pm : PM) (files : List String) :
    ∀ acc : Classified, (files.foldl (addFile pm) acc).other
      = acc.other ++ files.filter (fun f => get_file_type pm f == "other") := by
  induction files with
  | nil => intro acc; simp
  | cons f fs ih =>
    intro acc
    rw [List.foldl_cons, ih, List.filter_cons]
    rcases get_file_type_cases pm f with h | h | h <;>
      simp [addFile, h]

theorem classifyList_image (pm : PM) (files : List String) :
    (classifyList pm files).image
      = files.filter (fun f => get_file_type pm f == "image") := by
  unfold classifyList
  rw [foldl_addFile_image]
  rfl

theorem classifyList_video (pm : PM) (files : List String) :
    (classifyList pm files).video
      = files.filter (fun f => get_file_type pm f == "video") := by
  unfold classifyList
  rw [foldl_addFile_video]
  rfl

theorem classifyList_other (pm : PM) (files : List String) :
    (classifyList pm files).other
      = files.filter (fun f => get_file_type pm f == "other") := by
  unfold classifyList
  rw [foldl_addFile_other]
  rfl

theorem filters_perm (pm : PM) (files : List String) :
    List.Perm
      (files.filter (fun f => get_file_type pm f == "image")
        ++ files.filter (fun f => get_file_type pm f == "video")
        ++ files.filter (fun f => get_file_type pm f == "other"))
      files := by
  induction files with
  | nil => simp
  | cons f fs ih =>
    rcases get_file_type_cases pm f with h | h | h
    · simp only [List.filter_cons, h]
      simp only [show (("image" : String) == "image") = true by rfl,
        show (("image" : String) == "video") = false by rfl,
        show (("image" : String) == "other") = false by rfl,
        if_true, if_false, List.cons_append]
      exact ih.cons f
    · simp only [List.filter_cons, h]
      simp only [show (("video" : String) == "image") = false by rfl,
        show (("video" : String) == "video") = true by rfl,
        show (("video" : String) == "other") = false by rfl,
        if_true, if_false]
      refine List.Perm.trans ?_ (ih.cons f)
      rw [List.append_assoc, List.append_assoc]
      exact List.perm_middle.trans (List.Perm.cons f (List.Perm.refl _))
    · simp only [List.filter_cons, h]
      simp only [show (("other" : String) == "image") = false by rfl,
        show (("other" : String) == "video") = false by rfl,
        show (("other" : String) == "other") = true by rfl,
        if_true, if_false, Bool.false_eq_true]
      exact List.perm_middle.trans (List.Perm.cons f ih)

theorem mem_classifyList_image (pm : PM) (files : List String) (f : String) :
    f ∈ (classifyList pm files).image
      ↔ f ∈ files ∧ get_file_type pm f = "image" := by
  rw [classifyList_image, List.mem_filter]
  simp

theorem mem_classifyList_video (pm : PM) (files : List String) (f : String) :
    f ∈ (classifyList pm files).video
      ↔ f ∈ files ∧ get_file_type pm f = "video" := by
  rw [classifyList_video, List.mem_filter]
  simp

theorem mem_classifyList_other (pm : PM) (files : List String) (f : String) :
    f ∈ (classifyList pm files).other
      ↔ f ∈ files ∧ get_file_type pm f = "other" := by
  rw [classifyList_other, List.mem_filter]
  simp

/-! ## Lemmas on batch transfer -/

theorem batchCopyGo_false_preserves (out : String) (srcs : List String) :
    ∀ (fs : FS) (acc : List String) (p : String) (d : FileData),
      fsLookup fs p = some d →
      fsLookup (batchCopyGo out false fs srcs acc).fs p = some d := by
  induction srcs with
  | nil => intro fs acc p d h; exact h
  | cons src rest ih =>
    intro fs acc p d h
    by_cases he : pyExists fs (pjoin out (basename src)) = true
    · simp only [batchCopyGo, he, Bool.not_false, Bool.and_true, if_true]
      exact ih fs _ p d h
    · have he' : pyExists fs (pjoin out (basename src)) = false :=
        Bool.eq_false_iff.mpr he
      simp only [batchCopyGo, he', Bool.not_false, Bool.and_true,
        Bool.false_eq_true, if_false]
      cases hc : fsLookup fs src with
      | none => simp only [copy2, hc]; exact h
      | some d0 =>
        simp only [copy2, hc]
        have hne : p ≠ pjoin out (basename src) := by
          intro heq
          rw [heq, fsLookup_of_pyExists_false _ _ he'] at h
          cases h
        exact ih _ _ p d (by rw [fsLookup_fsSet_ne _ _ _ _ hne]; exact h)

theorem batchMoveGo_false_preserves_dest (out : String) (srcs : List String) :
    ∀ (fs : FS) (acc : List String) (b : String) (dt : FileData),
      noSlash b →
      fsLookup fs (pjoin out b) = some dt →
      fsLookup (batchMoveGo out false fs srcs acc).fs (pjoin out b) = some dt := by
  induction srcs with
  | nil => intro fs acc b dt _ h; exact h
  | cons src rest ih =>
    intro fs acc b dt hb h
    by_cases he : pyExists fs (pjoin out (basename src)) = true
    · simp only [batchMoveGo, he, Bool.not_false, Bool.and_true, if_true]
      exact ih fs _ b dt hb h
    · have he' : pyExists fs (pjoin out (basename src)) = false :=
        Bool.eq_false_iff.mpr he
      simp only [batchMoveGo, he', Bool.not_false, Bool.and_true,
        Bool.false_eq_true, if_false]
      cases hc : fsLookup fs src with
      | none => simp only [shutilMove, hc]; exact h
      | some d0 =>
        simp only [shutilMove, hc]
        have hpt : pjoin out b ≠ pjoin out (basename src) := by
          intro heq
          rw [heq, fsLookup_of_pyExists_false _ _ he'] at h
          cases h
        have hps : src ≠ pjoin out b := by
          intro heq
          apply hpt
          rw [heq, basename_pjoin out b hb]
        apply ih _ _ b dt hb
        rw [fsLookup_fsSet_ne _ _ _ _ hpt,
          fsLookup_fsErase_ne _ _ _ (Ne.symm hps)]
        exact h

theorem batchMoveGo_false_preserves_src (out : String) (srcs : List String) :
    ∀ (fs : FS) (acc : List String) (s : String) (ds dt : FileData),
      fsLookup fs s = some ds →
      fsLookup fs (pjoin out (basename s)) = some dt →
      fsLookup (batchMoveGo out false fs srcs acc).fs s = some ds
        ∧ fsLookup (batchMoveGo out false fs srcs acc).fs
            (pjoin out (basename s)) = some dt := by
  induction srcs with
  | nil => intro fs acc s ds dt hs ht; exact ⟨hs, ht⟩
  | cons src rest ih =>
    intro fs acc s ds dt hs ht
    by_cases he : pyExists fs (pjoin out (basename src)) = true
    · simp only [batchMoveGo, he, Bool.not_false, Bool.and_true, if_true]
      exact ih fs _ s ds dt hs ht
    · have he' : pyExists fs (pjoin out (basename src)) = false :=
        Bool.eq_false_iff.mpr he
      simp only [batchMoveGo, he', Bool.not_false, Bool.and_true,
        Bool.false_eq_true, if_false]
      have hlt : fsLookup fs (pjoin out (basename src)) = none :=
        fsLookup_of_pyExists_false _ _ he'
      have hsrc_ne_s : src ≠ s := by
        intro heq
        rw [heq] at hlt
        rw [hlt] at ht
        cases ht
      cases hc : fsLookup fs src with
      | none => simp only [shutilMove, hc]; exact ⟨hs, ht⟩
      | some d0 =>
        simp only [shutilMove, hc]
        have htgt_ne_s : s ≠ pjoin out (basename src) := by
          intro heq
          rw [heq, hlt] at hs
          cases hs
        have htgt_ne_ts : pjoin out (basename s) ≠ pjoin out (basename src) := by
          intro heq
          rw [heq, hlt] at ht
          cases ht
        have hsrc_ne_ts : src ≠ pjoin out (basename s) := by
          intro heq
          apply htgt_ne_ts
          rw [heq, basename_pjoin out (basename s) (noSlash_basename s)]
        apply ih
        · rw [fsLookup_fsSet_ne _ _ _ _ htgt_ne_s,
            fsLookup_fsErase_ne _ _ _ (Ne.symm hsrc_ne_s)]
          exact hs
        · rw [fsLookup_fsSet_ne _ _ _ _ htgt_ne_ts,
            fsLookup_fsErase_ne _ _ _ (Ne.symm hsrc_ne_ts)]
          exact ht

theorem batchMoveGo_ret (out : String) (ow : Bool) (srcs : List String) :
    ∀ (fs : FS) (acc : List String),
      (batchMoveGo out ow fs srcs acc).err = none →
      (batchMoveGo out ow fs srcs acc).ret
        = acc ++ srcs.map (fun s => pjoin out (basename s)) := by
  induction srcs with
  | nil => intro fs acc _; simp [batchMoveGo]
  | cons src rest ih =>
    intro fs acc herr
    by_cases he : (pyExists fs (pjoin out (basename src)) && !ow) = true
    · simp only [batchMoveGo, he, if_true] at herr ⊢
      rw [ih _ _ herr]
      simp
    · have he' : (pyExists fs (pjoin out (basename src)) && !ow) = false :=
        Bool.eq_false_iff.mpr he
      simp only [batchMoveGo, he', Bool.false_eq_true, if_false] at herr ⊢
      cases hc : fsLookup fs src with
      | none =>
        simp only [shutilMove, hc] at herr
        cases herr
      | some d0 =>
        simp only [shutilMove, hc] at herr ⊢
        rw [ih _ _ herr]
        simp

theorem batchMoveGo_all_targets_exist (out : String) (srcs : List String) :
    ∀ (fs : FS) (acc : List String),
      (∀ s ∈ srcs, pyExists fs (pjoin out (basename s)) = true) →
      batchMoveGo out false fs srcs acc
        = ⟨fs, acc ++ srcs.map (fun s => pjoin out (basename s)), none⟩ := by
  induction srcs with
  | nil => intro fs acc _; simp [batchMoveGo]
  | cons src rest ih =>
    intro fs acc hall
    have he : pyExists fs (pjoin out (basename src)) = true :=
      hall src (List.mem_cons_self src rest)
    simp only [batchMoveGo, he, Bool.not_false, Bool.and_true, if_true]
    rw [ih fs _ (fun s hsmem => hall s (List.mem_cons_of_mem src hsmem))]
    simp

/-! ## Lemmas on the bridge's temp-file store -/

theorem tmpLookup_cons (a : String × Option Json) (t : TmpFS) (p : String) :
    tmpLookup (a :: t) p = if a.1 = p then some a.2 else tmpLookup t p := by
  by_cases h : a.1 = p
  · simp [tmpLookup, List.find?, h]
  · simp [tmpLookup, List.find?, h]

theorem tmpLookup_removeKey (l : TmpFS) (a : String) :
    tmpLookup (l.filter (fun q => q.1 ≠ a)) a = none := by
  induction l with
  | nil => rfl
  | cons q rest ih =>
    by_cases h : q.1 = a
    · simp only [List.filter, h]
      simpa using ih
    · simp only [List.filter]
      rw [show (decide ¬q.1 = a) = true by simpa using h]
      rw [tmpLookup_cons, if_neg h]
      exact ih

theorem tmpLookup_filter_none (l : TmpFS) (p : String × Option Json → Bool)
    (a : String) (h : tmpLookup l a = none) :
    tmpLookup (l.filter p) a = none := by
  induction l with
  | nil => rfl
  | cons q rest ih =>
    rw [tmpLookup_cons] at h
    by_cases hq : q.1 = a
    · rw [if_pos hq] at h
      cases h
    · rw [if_neg hq] at h
      simp only [List.filter]
      cases hp : p q with
      | true =>
        rw [tmpLookup_cons, if_neg hq]
        exact ih h
      | false => exact ih h

theorem tmpLookup_cleanup_input (t : TmpFS) (a b : String) :
    tmpLookup (cleanupTemps t a b) a = none :=
  tmpLookup_filter_none _ _ _ (tmpLookup_removeKey t a)

theorem tmpLookup_cleanup_output (t : TmpFS) (a b : String) :
    tmpLookup (cleanupTemps t a b) b = none :=
  tmpLookup_removeKey _ b

/-! ## Claim theorems -/

/-- C3: Classification is a partition: for every directory tree, classify
places each file found by the recursive walk in exactly one of the
categories image, video, other (chosen by case-insensitive extension
lookup via `get_file_type`), and the union of the three category lists is a
rearrangement-free account of the full recursive listing of the root. -/
theorem c3_classification_partition (pm : PM) (fs : FS) (root_dir : String) :
    List.Perm
      ((classify_files pm fs root_dir).image ++ (classify_files pm fs root_dir).video
        ++ (classify_files pm fs root_dir).other)
      (walkFiles fs root_dir)
    ∧ (classify_files pm fs root_dir).image
        = (walkFiles fs root_dir).filter (fun f => get_file_type pm f == "image")
    ∧ (classify_files pm fs root_dir).video
        = (walkFiles fs root_dir).filter (fun f => get_file_type pm f == "video")
    ∧ (classify_files pm fs root_dir).other
        = (walkFiles fs root_dir).filter (fun f => get_file_type pm f == "other")
    ∧ ∀ f ∈ walkFiles fs root_dir,
        (f ∈ (classify_files pm fs root_dir).image
          ∧ f ∉ (classify_files pm fs root_dir).video
          ∧ f ∉ (classify_files pm fs root_dir).other)
        ∨ (f ∉ (classify_files pm fs root_dir).image
          ∧ f ∈ (classify_files pm fs root_dir).video
          ∧ f ∉ (classify_files pm fs root_dir).other)
        ∨ (f ∉ (classify_files pm fs root_dir).image
          ∧ f ∉ (classify_files pm fs root_dir).video
          ∧ f ∈ (classify_files pm fs root_dir).other) := by
  refine ⟨?_, ?_, ?_, ?_, ?_⟩
  · show List.Perm
      ((classifyList pm (walkFiles fs root_dir)).image
        ++ (classifyList pm (walkFiles fs root_dir)).video
        ++ (classifyList pm (walkFiles fs root_dir)).other) _
    rw [classifyList_image, classifyList_video, classifyList_other]
    exact filters_perm pm (walkFiles fs root_dir)
  · exact classifyList_image pm (walkFiles fs root_dir)
  · exact classifyList_video pm (walkFiles fs root_dir)
  · exact classifyList_other pm (walkFiles fs root_dir)
  · intro f hf
    rcases get_file_type_cases pm f with h | h | h
    · left
      refine ⟨(mem_classifyList_image pm _ f).mpr ⟨hf, h⟩, ?_, ?_⟩
      · intro hm
        have hv := ((mem_classifyList_video pm _ f).mp hm).2
        exact absurd (h.symm.trans hv) (by decide)
      · intro hm
        have ho := ((mem_classifyList_other pm _ f).mp hm).2
        exact absurd (h.symm.trans ho) (by decide)
    · right; left
      refine ⟨?_, (mem_classifyList_video pm _ f).mpr ⟨hf, h⟩, ?_⟩
      · intro hm
        have hi := ((mem_classifyList_image pm _ f).mp hm).2
        exact absurd (h.symm.trans hi) (by decide)
      · intro hm
        have ho := ((mem_classifyList_other pm _ f).mp hm).2
        exact absurd (h.symm.trans ho) (by decide)
    · right; right
      refine ⟨?_, ?_, (mem_classifyList_other pm _ f).mpr ⟨hf, h⟩⟩
      · intro hm
        have hi := ((mem_classifyList_image pm _ f).mp hm).2
        exact absurd (h.symm.trans hi) (by decide)
      · intro hm
        have hv := ((mem_classifyList_video pm _ f).mp hm).2
        exact absurd (h.symm.trans hv) (by decide)

/-- Witness for C3: the exactly-one-category disjunction instantiated on a
concrete tree of one image, one video and one text file. -/
theorem c3_classification_partition_witness :
    ("/r/a.jpg" ∈ (classify_files pmDefault fsC3 "/r").image
      ∧ "/r/a.jpg" ∉ (classify_files pmDefault fsC3 "/r").video
      ∧ "/r/a.jpg" ∉ (classify_files pmDefault fsC3 "/r").other)
    ∨ ("/r/a.jpg" ∉ (classify_files pmDefault fsC3 "/r").image
      ∧ "/r/a.jpg" ∈ (classify_files pmDefault fsC3 "/r").video
      ∧ "/r/a.jpg" ∉ (classify_files pmDefault fsC3 "/r").other)
    ∨ ("/r/a.jpg" ∉ (classify_files pmDefault fsC3 "/r").image
      ∧ "/r/a.jpg" ∉ (classify_files pmDefault fsC3 "/r").video
      ∧ "/r/a.jpg" ∈ (classify_files pmDefault fsC3 "/r").other) :=
  (c3_classification_partition pmDefault fsC3 "/r").2.2.2.2 "/r/a.jpg" (by decide)

/-- C9 counterexample: the walk enumerates `fsC9` as `/r/b.jpg` before
`/r/a.jpg` (directory order is the OS's, and `classify_files` — unlike
`_get_media_files` — never sorts), so the image category is not
lexicographically sorted. -/
theorem c9_sorted_counterexample :
    (classify_files pmDefault fsC9 "/r").image = ["/r/b.jpg", "/r/a.jpg"]
    ∧ ¬ List.Pairwise (fun a b => pathLe a b = true)
        ((classify_files pmDefault fsC9 "/r").image) := by
  constructor
  · decide
  · intro h
    rw [show (classify_files pmDefault fsC9 "/r").image
        = ["/r/b.jpg", "/r/a.jpg"] by decide] at h
    rcases List.pairwise_cons.mp h with ⟨hle, _⟩
    have := hle "/r/a.jpg" (List.mem_cons_self _ _)
    revert this
    decide

/-- C9 amended: classification is a deterministic function of the walk
enumeration and preserves the enumeration order inside each category (each
category is an order-preserving selection of the walk listing); only when
the walk listing itself is lexicographically sorted are the category lists
sorted — the implementation does not sort. -/
theorem c9_classification_order (pm : PM) (fs : FS) (root_dir : String) :
    List.Sublist (classify_files pm fs root_dir).image (walkFiles fs root_dir)
    ∧ List.Sublist (classify_files pm fs root_dir).video (walkFiles fs root_dir)
    ∧ List.Sublist (classify_files pm fs root_dir).other (walkFiles fs root_dir)
    ∧ (List.Pairwise (fun a b => pathLe a b = true) (walkFiles fs root_dir) →
        List.Pairwise (fun a b => pathLe a b = true)
          (classify_files pm fs root_dir).image
        ∧ List.Pairwise (fun a b => pathLe a b = true)
          (classify_files pm fs root_dir).video
        ∧ List.Pairwise (fun a b => pathLe a b = true)
          (classify_files pm fs root_dir).other) := by
  have hi := classifyList_image pm (walkFiles fs root_dir)
  have hv := classifyList_video pm (walkFiles fs root_dir)
  have ho := classifyList_other pm (walkFiles fs root_dir)
  refine ⟨?_, ?_, ?_, ?_⟩
  · show List.Sublist (classifyList pm (walkFiles fs root_dir)).image _
    rw [hi]
    exact List.filter_sublist _
  · show List.Sublist (classifyList pm (walkFiles fs root_dir)).video _
    rw [hv]
    exact List.filter_sublist _
  · show List.Sublist (classifyList pm (walkFiles fs root_dir)).other _
    rw [ho]
    exact List.filter_sublist _
  · intro hsorted
    refine ⟨?_, ?_, ?_⟩
    · show List.Pairwise _ (classifyList pm (walkFiles fs root_dir)).image
      rw [hi]
      exact List.Pairwise.sublist (List.filter_sublist _) hsorted
    · show List.Pairwise _ (classifyList pm (walkFiles fs root_dir)).video
      rw [hv]
      exact List.Pairwise.sublist (List.filter_sublist _) hsorted
    · show List.Pairwise _ (classifyList pm (walkFiles fs root_dir)).other
      rw [ho]
      exact List.Pairwise.sublist (List.filter_sublist _) hsorted

/-- Witness for the amended C9: on a store whose walk listing is sorted,
the image category comes out sorted, and it is an order-preserving
selection of the listing. -/
theorem c9_classification_order_witness :
    List.Sublist (classify_files pmDefault fsC3 "/r").image (walkFiles fsC3 "/r")
    ∧ List.Pairwise (fun a b => pathLe a b = true)
        (classify_files pmDefault fsC3 "/r").image :=
  ⟨(c9_classification_order pmDefault fsC3 "/r").1,
   ((c9_classification_order pmDefault fsC3 "/r").2.2.2 (by decide)).1⟩

/-- C8: For every batch transfer (copy or move) with overwrite=false, a
destination file that already exists before the transfer is left completely
untouched (same content and same modification metadata); with
overwrite=true the existing destination file is replaced by the source
(content and metadata via `shutil.copy2` / `shutil.move`). -/
theorem c8_overwrite_policy (pm : PM) :
    (∀ (fs : FS) (srcs : List String) (out p : String) (d : FileData),
      fsLookup fs p = some d →
      fsLookup (batch_copy_files pm fs srcs out (some false)).fs p = some d)
    ∧ (∀ (fs : FS) (srcs : List String) (out b : String) (d : FileData),
      noSlash b →
      fsLookup fs (pjoin out b) = some d →
      fsLookup (batch_move_files pm fs srcs out (some false)).fs (pjoin out b)
        = some d)
    ∧ (∀ (fs : FS) (s out : String) (ds : FileData),
      fsLookup fs s = some ds →
      fsLookup (batch_copy_files pm fs [s] out (some true)).fs
        (pjoin out (basename s)) = some ds)
    ∧ (∀ (fs : FS) (s out : String) (ds : FileData),
      fsLookup fs s = some ds →
      fsLookup (batch_move_files pm fs [s] out (some true)).fs
        (pjoin out (basename s)) = some ds
      ∧ (s ≠ pjoin out (basename s) →
        fsLookup (batch_move_files pm fs [s] out (some true)).fs s = none)) := by
  refine ⟨?_, ?_, ?_, ?_⟩
  · intro fs srcs out p d h
    exact batchCopyGo_false_preserves out srcs fs [] p d h
  · intro fs srcs out b d hb h
    exact batchMoveGo_false_preserves_dest out srcs fs [] b d hb h
  · intro fs s out ds h
    show fsLookup (batchCopyGo out true fs [s] []).fs _ = some ds
    simp only [batchCopyGo, Bool.not_true, Bool.and_false, Bool.false_eq_true,
      if_false, copy2, h]
    exact fsLookup_fsSet_self _ _ _
  · intro fs s out ds h
    constructor
    · show fsLookup (batchMoveGo out true fs [s] []).fs _ = some ds
      simp only [batchMoveGo, Bool.not_true, Bool.and_false, Bool.false_eq_true,
        if_false, shutilMove, h]
      exact fsLookup_fsSet_self _ _ _
    · intro hne
      show fsLookup (batchMoveGo out true fs [s] []).fs s = none
      simp only [batchMoveGo, Bool.not_true, Bool.and_false, Bool.false_eq_true,
        if_false, shutilMove, h]
      rw [fsLookup_fsSet_ne _ _ _ _ hne]
      exact fsLookup_fsErase_self _ _

/-- Witness for C8: concrete source `/src/f.txt` and pre-existing
destination `/dst/f.txt`; with overwrite=false both transfers leave the
destination's data intact, with overwrite=true both replace it and move
removes the source. -/
theorem c8_overwrite_policy_witness :
    fsLookup (batch_copy_files pmDefault fsC8 ["/src/f.txt"] "/dst" (some false)).fs
      "/dst/f.txt" = some ⟨"old-bytes", 1⟩
    ∧ fsLookup (batch_move_files pmDefault fsC8 ["/src/f.txt"] "/dst" (some false)).fs
      (pjoin "/dst" "f.txt") = some ⟨"old-bytes", 1⟩
    ∧ fsLookup (batch_copy_files pmDefault fsC8 ["/src/f.txt"] "/dst" (some true)).fs
      (pjoin "/dst" (basename "/src/f.txt")) = some ⟨"new-bytes", 5⟩
    ∧ fsLookup (batch_move_files pmDefault fsC8 ["/src/f.txt"] "/dst" (some true)).fs
      (pjoin "/dst" (basename "/src/f.txt")) = some ⟨"new-bytes", 5⟩
    ∧ fsLookup (batch_move_files pmDefault fsC8 ["/src/f.txt"] "/dst" (some true)).fs
      "/src/f.txt" = none :=
  ⟨(c8_overwrite_policy pmDefault).1 fsC8 ["/src/f.txt"] "/dst" "/dst/f.txt"
      ⟨"old-bytes", 1⟩ (by decide),
   (c8_overwrite_policy pmDefault).2.1 fsC8 ["/src/f.txt"] "/dst" "f.txt"
      ⟨"old-bytes", 1⟩ (by decide) (by decide),
   (c8_overwrite_policy pmDefault).2.2.1 fsC8 "/src/f.txt" "/dst"
      ⟨"new-bytes", 5⟩ (by decide),
   ((c8_overwrite_policy pmDefault).2.2.2 fsC8 "/src/f.txt" "/dst"
      ⟨"new-bytes", 5⟩ (by decide)).1,
   ((c8_overwrite_policy pmDefault).2.2.2 fsC8 "/src/f.txt" "/dst"
      ⟨"new-bytes", 5⟩ (by decide)).2 (by decide)⟩

/-- C10: with overwrite=false, a source whose destination basename already
exists is silently skipped — it keeps its data at the original path and
nothing fails — while the returned list still contains the destination
path for every source (in particular, when every destination exists the
batch changes nothing, errors nothing, and returns one target per
source). -/
theorem c10_move_skip_semantics (pm : PM) (fs : FS) (srcs : List String)
    (out : String) :
    ((batch_move_files pm fs srcs out (some false)).err = none →
      (batch_move_files pm fs srcs out (some false)).ret
        = srcs.map (fun s => pjoin out (basename s)))
    ∧ (∀ (s : String) (ds dt : FileData),
        fsLookup fs s = some ds →
        fsLookup fs (pjoin out (basename s)) = some dt →
        fsLookup (batch_move_files pm fs srcs out (some false)).fs s = some ds)
    ∧ ((∀ s ∈ srcs, pyExists fs (pjoin out (basename s)) = true) →
        batch_move_files pm fs srcs out (some false)
          = ⟨fs, srcs.map (fun s => pjoin out (basename s)), none⟩) := by
  refine ⟨?_, ?_, ?_⟩
  · intro herr
    exact batchMoveGo_ret out false srcs fs [] herr
  · intro s ds dt hs ht
    exact (batchMoveGo_false_preserves_src out srcs fs [] s ds dt hs ht).1
  · intro hall
    exact batchMoveGo_all_targets_exist out srcs fs [] hall

/-- Witness for C10: the single source `/s/a.txt` collides with the
existing `/d/a.txt`; the batch reports no error, returns the destination
path anyway, and the source file stays in place. -/
theorem c10_move_skip_semantics_witness :
    (batch_move_files pmDefault fsC10 ["/s/a.txt"] "/d" (some false)).ret
      = ["/s/a.txt"].map (fun s => pjoin "/d" (basename s))
    ∧ fsLookup (batch_move_files pmDefault fsC10 ["/s/a.txt"] "/d" (some false)).fs
      "/s/a.txt" = some ⟨"A", 3⟩
    ∧ batch_move_files pmDefault fsC10 ["/s/a.txt"] "/d" (some false)
      = ⟨fsC10, ["/s/a.txt"].map (fun s => pjoin "/d" (basename s)), none⟩ :=
  ⟨(c10_move_skip_semantics pmDefault fsC10 ["/s/a.txt"] "/d").1 (by decide),
   (c10_move_skip_semantics pmDefault fsC10 ["/s/a.txt"] "/d").2.1 "/s/a.txt"
      ⟨"A", 3⟩ ⟨"B", 4⟩ (by decide) (by decide),
   (c10_move_skip_semantics pmDefault fsC10 ["/s/a.txt"] "/d").2.2
      (by intro s hs; rw [List.mem_singleton.mp hs]; decide)⟩

/-- C5: for every bridge invocation, both temp files (the serialized
request file and the designated output file) are gone from the temp store
when the call returns, whatever the child did: the `finally` cleanup runs
on the success, non-zero-exit, deserialization-failure and spawn-failure
paths alike. -/
theorem c5_temp_files_removed (env : OsEnv) (child : ChildBehavior)
    (venv_path : Option String) (command : List String) (input_data : Json)
    (input_file output_file : String) :
    tmpLookup (run_in_environment env child venv_path command input_data
      input_file output_file).tmpfs input_file = none
    ∧ tmpLookup (run_in_environment env child venv_path command input_data
      input_file output_file).tmpfs output_file = none := by
  unfold run_in_environment
  rcases child input_data with ⟨e, w⟩
  cases e <;> cases w <;>
    exact ⟨tmpLookup_cleanup_input _ _ _, tmpLookup_cleanup_output _ _ _⟩

/-- C6: the bridge blocks on the child; exit 0 yields the deserialized
output-file content as the response with no error; a non-zero exit yields
no response and the categorized message carrying the exit code, the stderr
and the command line; and a verbatim-copy child round-trips the request,
leaving no temp files behind. -/
theorem c6_bridge_exit_semantics (env : OsEnv) (venv_path : Option String)
    (command : List String) (input_data : Json) (input_file output_file : String) :
    (∀ w : Json,
      (run_in_environment env (fun _ => (.exit0, some w)) venv_path command
        input_data input_file output_file).response = some w
      ∧ (run_in_environment env (fun _ => (.exit0, some w)) venv_path command
        input_data input_file output_file).error = none)
    ∧ (∀ (code : Int) (stderr : String) (w : Option Json),
      (run_in_environment env (fun _ => (.exitNZ code stderr, w)) venv_path command
        input_data input_file output_file).response = none
      ∧ (run_in_environment env (fun _ => (.exitNZ code stderr, w)) venv_path command
        input_data input_file output_file).error
        = some (execErrorMsg code stderr
            ((run_in_environment env (fun _ => (.exitNZ code stderr, w)) venv_path
              command input_data input_file output_file).full_command)))
    ∧ ((run_in_environment env childCopy venv_path command input_data
        input_file output_file).response = some input_data
      ∧ (run_in_environment env childCopy venv_path command input_data
        input_file output_file).error = none
      ∧ tmpLookup (run_in_environment env childCopy venv_path command input_data
        input_file output_file).tmpfs input_file = none
      ∧ tmpLookup (run_in_environment env childCopy venv_path command input_data
        input_file output_file).tmpfs output_file = none) := by
  refine ⟨fun w => ⟨rfl, rfl⟩, fun code stderr w => ⟨?_, ?_⟩, rfl, rfl, ?_, ?_⟩
  · cases w <;> rfl
  · cases w <;> rfl
  · exact tmpLookup_cleanup_input _ _ _
  · exact tmpLookup_cleanup_output _ _ _

/-- C7 counterexample: an environment reference is supplied
(`/opt/missing_env`) and no such path exists on the host, yet the
invocation does not fail as a spawn failure: the activation prefix
degenerates to the empty list, the executable runs directly, and the call
succeeds. -/
theorem c7_missing_env_counterexample :
    get_activate_command envNoPaths (some "/opt/missing_env")
      = PyStrOrList.emptyList
    ∧ (run_in_environment envNoPaths childCopy (some "/opt/missing_env")
        ["python", "mod.py"] (Json.str "req") "/tmp/in.json" "/tmp/out.json").error
      = none
    ∧ (run_in_environment envNoPaths childCopy (some "/opt/missing_env")
        ["python", "mod.py"] (Json.str "req") "/tmp/in.json" "/tmp/out.json").response
      = some (Json.str "req")
    ∧ (run_in_environment envNoPaths childCopy (some "/opt/missing_env")
        ["python", "mod.py"] (Json.str "req") "/tmp/in.json" "/tmp/out.json").full_command
      = "python mod.py /tmp/in.json /tmp/out.json" :=
  ⟨rfl, rfl, rfl, rfl⟩

/-- C7 amended: when the named environment path does not exist (just as
when no environment is named), no activation prefix is built and the
executable runs directly — the invocation behaves exactly as an
environment-less call and reports no spawn failure. -/
theorem c7_missing_env_runs_direct (env : OsEnv) (child : ChildBehavior)
    (command : List String) (input_data : Json) (input_file output_file : String)
    (v : String) (h : env.pathExists v = false) :
    get_activate_command env (some v) = PyStrOrList.emptyList
    ∧ run_in_environment env child (some v) command input_data input_file output_file
      = run_in_environment env child none command input_data input_file output_file := by
  have hact : get_activate_command env (some v) = PyStrOrList.emptyList := by
    unfold get_activate_command
    simp [h]
  refine ⟨hact, ?_⟩
  simp only [run_in_environment, hact,
    show get_activate_command env none = PyStrOrList.emptyList from rfl]

/-- Witness for the amended C7: the concrete missing environment behaves
exactly like naming no environment. -/
theorem c7_missing_env_runs_direct_witness :
    get_activate_command envNoPaths (some "/opt/missing_env")
      = PyStrOrList.emptyList
    ∧ run_in_environment envNoPaths childCopy (some "/opt/missing_env")
        ["python", "mod.py"] (Json.str "req") "/tmp/in.json" "/tmp/out.json"
      = run_in_environment envNoPaths childCopy none
        ["python", "mod.py"] (Json.str "req") "/tmp/in.json" "/tmp/out.json" :=
  c7_missing_env_runs_direct envNoPaths childCopy ["python", "mod.py"]
    (Json.str "req") "/tmp/in.json" "/tmp/out.json" "/opt/missing_env" rfl

/-- C4: validation against the constructor contract.  A missing required
parameter is fatal and the failure names the missing parameter(s) and the
full required set; an unknown extra parameter is only warned about and the
call succeeds; a plain class annotation is checked against the supplied
value's type.  But a union-shaped (non-class) annotation makes validation
raise `NameError` for any supplied value — the branch evaluates the name
`Union`, which is never imported — instead of treating the annotation as a
set of acceptable types. -/
theorem c4_validation_contract :
    validate_init_params sigAB [("a", ⟨PyType.strT⟩)]
      = ValidateResult.valueError ["b"] ["a", "b"]
    ∧ validate_init_params sigAB
        [("a", ⟨PyType.strT⟩), ("b", ⟨PyType.intT⟩), ("c", ⟨PyType.strT⟩)]
      = ValidateResult.ok ["c"]
    ∧ validate_init_params sigUnion [("x", ⟨PyType.strT⟩)]
      = ValidateResult.nameError "Union"
    ∧ (∀ (t : PyType) (v : PyVal),
      validate_init_params [⟨"self", false, Ann.empty⟩, ⟨"p", false, Ann.cls t⟩]
          [("p", v)]
        = if v.ty = t then ValidateResult.ok []
          else ValidateResult.typeError "p" t v.ty) := by
  refine ⟨by decide, by decide, by decide, ?_⟩
  intro t v
  by_cases h : v.ty = t
  · simp [validate_init_params, validateTypes, dictHas, h]
  · simp [validate_init_params, validateTypes, dictHas, h]

/-- C1: what `run` actually appends.  On a concrete run whose input tree
`/in` holds one image while the step's output directory `/out` already
holds another image, the report entry's `input_dir` field equals the
step's output directory (not `/in`, the directory whose classification fed
the step), and its `input_classified` counts are those of the output
directory after the step (2 images), not the pre-step input classification
(1 image): lines 154-163 of pipeline_new.py reassign `current_dir` and
`current_classified` to the output side before building the entry. -/
theorem c1_report_entry_records_output_side :
    run true pmDefault modulesC1 stepsC1 fsC1 "/in"
      = RunOutcome.finished [entryC1] fsC1'
    ∧ entryC1.input_dir = "/out"
    ∧ entryC1.output_dir = "/out"
    ∧ countsOf (classify_files pmDefault fsC1 "/in")
      = [("image", 1), ("video", 0), ("other", 0)]
    ∧ entryC1.input_classified = [("image", 2), ("video", 0), ("other", 0)]
    ∧ ("/out" : String) ≠ "/in" := by
  refine ⟨by decide, rfl, rfl, by decide, rfl, by decide⟩

/-- C2 counterexample: with stop-on-error set, the first step of this run
reports a per-category error, yet the engine does not halt: it executes
the second step and the returned report holds both entries. -/
theorem c2_stop_on_error_counterexample :
    run true pmDefault modulesC2 stepsC2 fsC2 "/in"
      = RunOutcome.finished [entryC2a, entryC2b] fsC2'
    ∧ entryC2a.result.errors = [errVideoC2]
    ∧ entryC2a.result.errors ≠ [] := by
  refine ⟨by decide, rfl, by decide⟩

/-- C2 amended: per-category errors within a step are collected into that
step's report rather than thrown past step boundaries, and the engine
records them and proceeds to the next step whether or not stop-on-error is
set — the batch run loop never consults the flag, so runs with the flag
set and cleared are identical (here, under the cleared flag, both steps
record their category error and both report entries are produced). -/
theorem c2_errors_collected_flag_ignored :
    (∀ (b₁ b₂ : Bool) (pm : PM) (modules : List (String × ModuleInfo))
      (steps : List Step) (fs : FS) (input_path : String),
      run b₁ pm modules steps fs input_path
        = run b₂ pm modules steps fs input_path)
    ∧ run false pmDefault modulesC2 stepsC2 fsC2 "/in"
      = RunOutcome.finished [entryC2a, entryC2b] fsC2'
    ∧ entryC2b.result.errors = [errVideoC2] := by
  refine ⟨fun b₁ b₂ pm modules steps fs input_path => rfl, by decide, rfl⟩

end Pipeline
